import Mathlib

/-!
Verification development for `torchx/cli/cmd_run.py`.

The Python source is shallowly embedded: strings become `List Char`,
Python AST nodes become the inductive `PyNode`, exceptions become
`Except`, and each relevant function of the source is translated to an
executable Lean definition keeping the source's structure and names
where possible.
-/

/-- Python strings are modelled as lists of characters. -/
abbrev PyStr := List Char

/-- Helper turning a Lean string literal into the `PyStr` model. -/
def pyS (s : String) : PyStr := s.data

/-- The kinds of Python AST nodes relevant to the validator.  Besides the
eighteen classes appearing in `ConfValidator.FEATURE_BLOCKLIST` it includes
the ordinary statement/expression kinds a config script can contain
(`ast.Module`, `ast.Assign`, ...), plus `ast.AsyncFunctionDef` and
`ast.IfExp`, which exist in Python's `ast` module but are not members of
the blocklist tuple. -/
inductive NodeKind where
  | Module | Expr | Assign | Call | Name | Constant | Attribute | Pass | BinOp
  | IfExp | AsyncFunctionDef
  | FunctionDef | ClassDef | Return | Delete | For | AsyncFor | While | If
  | With | AsyncWith | Raise | Try | Global | Nonlocal
  | ListComp | SetComp | DictComp | GeneratorExp
deriving DecidableEq

/-- `ConfValidator.IMPORT_ALLOWLIST` from the source. -/
def IMPORT_ALLOWLIST : List PyStr :=
  [pyS "torchx", pyS "torchelastic.tsm", pyS "os.path",
   pyS "pytorch.elastic.torchelastic.tsm"]

/-- `ConfValidator.FEATURE_BLOCKLIST` from the source: the tuple of AST
classes whose presence anywhere in the tree aborts validation. -/
def FEATURE_BLOCKLIST : List NodeKind :=
  [.FunctionDef, .ClassDef, .Return, .Delete, .For, .AsyncFor, .While, .If,
   .With, .AsyncWith, .Raise, .Try, .Global, .Nonlocal,
   .ListComp, .SetComp, .DictComp, .GeneratorExp]

/-- A Python syntax tree as seen by `ConfValidator`.  `stmt` covers every
node kind the validator treats generically (its children listed in field
order, as `ast.NodeVisitor.generic_visit` iterates them); `imp` is an
`ast.Import` node carrying its alias names; `impFrom` is an
`ast.ImportFrom` node carrying its optional module and its alias names.
`ast.Import` and `ast.ImportFrom` are not members of `FEATURE_BLOCKLIST`,
so giving them dedicated constructors does not change the blocklist test. -/
inductive PyNode where
  | stmt (kind : NodeKind) (children : List PyNode)
  | imp (names : List PyStr)
  | impFrom (module : Option PyStr) (names : List PyStr)

/-- The exceptions `ConfValidator` raises: `UnsupportFeatureError` for a
blocked construct, `ImportError` for a disallowed import path. -/
inductive VErr where
  | unsupportedFeature (kind : NodeKind)
  | importError (name : PyStr)
deriving DecidableEq

/-- The test `any(name.startswith(prefix) for prefix in self.IMPORT_ALLOWLIST)`
from `ConfValidator._validate_import_path`. -/
def startsWithAllowed (name : PyStr) : Bool :=
  IMPORT_ALLOWLIST.any (fun p => p.isPrefixOf name)

/-- `ConfValidator._validate_import_path`: raise on the first name that does
not start with an allowlisted prefix. -/
def validateImportPath : List PyStr → Except VErr Unit
  | [] => .ok ()
  | n :: rest =>
    if startsWithAllowed n then validateImportPath rest
    else .error (.importError n)

mutual

/-- `ConfValidator.visit`: raise `UnsupportFeatureError` if the node's class
is in `FEATURE_BLOCKLIST`, then dispatch as `ast.NodeVisitor` does —
`visit_Import` checks the alias names, `visit_ImportFrom` checks the module
when it is truthy (Python's `if module := node.module:` is false both for
`None` and for an empty string), and every other kind falls back to
`generic_visit`, which visits each child in order. -/
def visit : PyNode → Except VErr Unit
  | .stmt k cs =>
    if k ∈ FEATURE_BLOCKLIST then .error (.unsupportedFeature k)
    else visitList cs
  | .imp names => validateImportPath names
  | .impFrom m _ =>
    match m with
    | some mod => if mod.isEmpty then .ok () else validateImportPath [mod]
    | none => .ok ()

/-- Sequential visiting of a child list, stopping at the first raised error
(an exception propagates out of `generic_visit`'s loop). -/
def visitList : List PyNode → Except VErr Unit
  | [] => .ok ()
  | n :: rest =>
    match visit n with
    | .ok _ => visitList rest
    | .error e => .error e

end

/-- The violations of one import statement's name list, in order: one
`importError` per name that does not start with an allowed prefix. -/
def importViolations (names : List PyStr) : List VErr :=
  names.filterMap (fun n =>
    if startsWithAllowed n then none else some (.importError n))

mutual

/-- Specification-level collection of every policy violation in the tree, in
pre-order traversal order: a blocked node contributes its kind, an import
statement contributes one entry per disallowed path. -/
def violations : PyNode → List VErr
  | .stmt k cs =>
    (if k ∈ FEATURE_BLOCKLIST then [VErr.unsupportedFeature k] else [])
      ++ violationsList cs
  | .imp names => importViolations names
  | .impFrom m _ =>
    match m with
    | some mod => if mod.isEmpty then [] else importViolations [mod]
    | none => []

/-- Violations of a list of siblings, left to right. -/
def violationsList : List PyNode → List VErr
  | [] => []
  | n :: rest => violations n ++ violationsList rest

end

mutual

/-- Whether the tree contains, at any depth, a node whose kind is in
`FEATURE_BLOCKLIST`. -/
def containsBlocked : PyNode → Bool
  | .stmt k cs => k ∈ FEATURE_BLOCKLIST || containsBlockedList cs
  | .imp _ => false
  | .impFrom _ _ => false

/-- List version of `containsBlocked`. -/
def containsBlockedList : List PyNode → Bool
  | [] => false
  | n :: rest => containsBlocked n || containsBlockedList rest

end

mutual

/-- Whether every import path the validator checks in the tree starts with an
allowed prefix. -/
def allImportsOk : PyNode → Bool
  | .stmt _ cs => allImportsOkList cs
  | .imp names => names.all startsWithAllowed
  | .impFrom m _ =>
    match m with
    | some mod => mod.isEmpty || startsWithAllowed mod
    | none => true

/-- List version of `allImportsOk`. -/
def allImportsOkList : List PyNode → Bool
  | [] => true
  | n :: rest => allImportsOk n && allImportsOkList rest

end

/-- Turn a violation list into the validator's result: report the head if
there is one. -/
def errOfHead (l : List VErr) : Except VErr Unit :=
  match l with
  | [] => .ok ()
  | e :: _ => .error e

/-! ## Document splitting

`CmdRun.run` line 173: `frontmatter, script = body.split("\n---\n")`.
Python's `str.split` with a non-empty separator and no maxsplit cuts the
string at every non-overlapping occurrence of the separator, scanning left
to right; the two-variable unpacking then raises `ValueError` unless the
result has exactly two parts. -/

/-- The separator `"\n---\n"`. -/
def SEP : PyStr := pyS "\n---\n"

/-- Locate the first occurrence of `SEP`: `some (pre, post)` where `pre` is
the text before the first occurrence and `post` the text after it, `none`
when the separator does not occur. -/
def splitFirst : List Char → Option (List Char × List Char)
  | [] => none
  | c :: rest =>
    if SEP.isPrefixOf (c :: rest) then some ([], (c :: rest).drop SEP.length)
    else
      match splitFirst rest with
      | some (pre, post) => some (c :: pre, post)
      | none => none

/-- Iterated splitting at every non-overlapping occurrence of `SEP`, scanning
left to right.  The fuel argument only bounds the recursion; `pySplit`
supplies `s.length`, which is sufficient because each found occurrence
strictly shortens the remaining text. -/
def splitAllAux : Nat → List Char → List (List Char)
  | 0, s => [s]
  | fuel + 1, s =>
    match splitFirst s with
    | none => [s]
    | some (pre, post) => pre :: splitAllAux fuel post

/-- `body.split("\n---\n")` from the source. -/
def pySplit (s : List Char) : List (List Char) := splitAllAux s.length s

/-- Number of non-overlapping separator occurrences found by the split. -/
def sepCount (s : List Char) : Nat := (pySplit s).length - 1

/-- The `ValueError` raised by `frontmatter, script = ...` when the split
does not yield exactly two parts. -/
inductive DocErr where
  | notEnoughValues
  | tooManyValues
deriving DecidableEq

/-- `frontmatter, script = body.split("\n---\n")` from `CmdRun.run`. -/
def parseDoc (s : List Char) : Except DocErr (List Char × List Char) :=
  match pySplit s with
  | [fm, sc] => .ok (fm, sc)
  | [_] => .error .notEnoughValues
  | _ => .error .tooManyValues

/-! ## Argument schema

`_get_arg_type` and the per-argument loop body of `CmdRun.run`
(lines 179-195). -/

/-- The three Python builtins in `_get_arg_type`'s `TYPES` tuple. -/
inductive ArgType where
  | int | str | float
deriving DecidableEq

/-- The `TypeError` raised by `_get_arg_type`. -/
inductive SchemaErr where
  | unknownArgumentType (typeName : PyStr)
deriving DecidableEq

/-- `_get_arg_type`: compare `type_name` against `t.__name__` for each of
`(int, str, float)` in order; raise `TypeError` when none matches.  The
builtins' `__name__` attributes are the strings `"int"`, `"str"` and
`"float"`. -/
def getArgType (typeName : PyStr) : Except SchemaErr ArgType :=
  if typeName = pyS "int" then .ok .int
  else if typeName = pyS "str" then .ok .str
  else if typeName = pyS "float" then .ok .float
  else .error (.unknownArgumentType typeName)

/-- The scalar values a YAML metadata field can hold.  Python floats are
abstracted as rationals; this abstraction is never load-bearing for the
claims, which only depend on which coercions succeed. -/
inductive PyValue where
  | vnone
  | vbool (b : Bool)
  | vint (n : Int)
  | vfloat (q : Rat)
  | vstr (s : PyStr)
deriving DecidableEq

/-- Python truthiness of the modelled values, as tested by `if default:`. -/
def pyTruthy : PyValue → Bool
  | .vnone => false
  | .vbool b => b
  | .vint n => n != 0
  | .vfloat q => q != 0
  | .vstr s => !s.isEmpty

/-- Coercion failure (Python `ValueError`/`TypeError` raised inside
`int(...)`/`float(...)`). -/
inductive CoErr where
  | cantCoerce
deriving DecidableEq

/-- Accumulate the value of a digit string; `none` on the first non-digit. -/
def parseDigitsAux (acc : Nat) : List Char → Option Nat
  | [] => some acc
  | c :: rest =>
    if c.isDigit then parseDigitsAux (acc * 10 + (c.toNat - 48)) rest
    else none

/-- Value of a non-empty digit string. -/
def parseDigits (s : List Char) : Option Nat :=
  if s.isEmpty then none else parseDigitsAux 0 s

/-- Strip surrounding whitespace, as `int("  7 ")` accepts. -/
def stripSpaces (s : PyStr) : PyStr :=
  ((s.dropWhile Char.isWhitespace).reverse.dropWhile Char.isWhitespace).reverse

/-- Python `int(string)`: surrounding whitespace, an optional sign and a
non-empty run of decimal digits (digit grouping with underscores is not
modelled). -/
def parsePyInt (s : PyStr) : Option Int :=
  match stripSpaces s with
  | '-' :: rest => (parseDigits rest).map (fun n => -(n : Int))
  | '+' :: rest => (parseDigits rest).map (fun n => (n : Int))
  | t => (parseDigits t).map (fun n => (n : Int))

/-- Value of a digit string read as an integer, defaulting to 0 when empty
(used for the two sides of a decimal point). -/
def natOfDigits (s : List Char) : Nat :=
  s.foldl (fun acc c => acc * 10 + (c.toNat - 48)) 0

/-- Magnitude of a Python float literal: digits with an optional decimal
point (exponents, `inf` and `nan` are not modelled). -/
def parsePyFloatMag (t : PyStr) : Option Rat :=
  let intPart := t.takeWhile Char.isDigit
  let rest := t.dropWhile Char.isDigit
  match rest with
  | [] => if intPart.isEmpty then none else some ((natOfDigits intPart : Rat))
  | '.' :: frac =>
    if frac.all Char.isDigit then
      if intPart.isEmpty && frac.isEmpty then none
      else some ((natOfDigits intPart : Rat)
        + (natOfDigits frac : Rat) / ((10 : Rat) ^ frac.length))
    else none
  | _ => none

/-- Python `float(string)`. -/
def parsePyFloat (s : PyStr) : Option Rat :=
  match stripSpaces s with
  | '-' :: rest => (parsePyFloatMag rest).map (fun q => -q)
  | '+' :: rest => parsePyFloatMag rest
  | t => parsePyFloatMag t

/-- Truncation toward zero, as Python `int(float)` rounds. -/
def truncRat (q : Rat) : Int := if 0 ≤ q then q.floor else q.ceil

/-- Python `int(x)` on the modelled values. -/
def pyIntFn : PyValue → Except CoErr PyValue
  | .vint n => .ok (.vint n)
  | .vbool b => .ok (.vint (if b then 1 else 0))
  | .vfloat q => .ok (.vint (truncRat q))
  | .vstr s =>
    match parsePyInt s with
    | some n => .ok (.vint n)
    | none => .error .cantCoerce
  | .vnone => .error .cantCoerce

/-- Decimal digits of an integer. -/
def intRepr (n : Int) : PyStr := (toString n).data

/-- Python `str(x)` representation of the modelled values (the textual form
of a float is abstracted as its numerator and denominator). -/
def pyStrRepr : PyValue → PyStr
  | .vnone => pyS "None"
  | .vbool b => if b then pyS "True" else pyS "False"
  | .vint n => intRepr n
  | .vfloat q => intRepr q.num ++ '/' :: intRepr (q.den : Int)
  | .vstr s => s

/-- Python `str(x)`: never fails on the modelled values. -/
def pyStrFn (v : PyValue) : Except CoErr PyValue := .ok (.vstr (pyStrRepr v))

/-- Python `float(x)` on the modelled values. -/
def pyFloatFn : PyValue → Except CoErr PyValue
  | .vint n => .ok (.vfloat (n : Rat))
  | .vbool b => .ok (.vfloat (if b then 1 else 0))
  | .vfloat q => .ok (.vfloat q)
  | .vstr s =>
    match parsePyFloat s with
    | some q => .ok (.vfloat q)
    | none => .error .cantCoerce
  | .vnone => .error .cantCoerce

/-- The scalar coercion function each resolved type performs, i.e. calling
the builtin `_get_arg_type` returned. -/
def argCoerce : ArgType → PyValue → Except CoErr PyValue
  | .int, v => pyIntFn v
  | .str, v => pyStrFn v
  | .float, v => pyFloatFn v

/-- Errors of one iteration of the argument-building loop. -/
inductive BuildErr where
  | schema (e : SchemaErr)
  | coerceFail (e : CoErr)
deriving DecidableEq

/-- One iteration of the `for arg in conf["arguments"]` loop of
`CmdRun.run`, restricted to the type resolution and default handling it
performs (lines 180-188): `arg_type = _get_arg_type(arg.get("type", "str"))`;
`default = arg.get("default")`; `if default: default = arg_type(default)`.
`typeField` is `None` when the `type` key is absent; an absent `default`
key is `arg.get`'s `None`, i.e. `PyValue.vnone`.  Returns the resolved type
together with the stored default value. -/
def buildArg (typeField : Option PyStr) (defaultField : PyValue) :
    Except BuildErr (ArgType × PyValue) :=
  match getArgType (typeField.getD (pyS "str")) with
  | .error e => .error (.schema e)
  | .ok argType =>
    if pyTruthy defaultField then
      match argCoerce argType defaultField with
      | .error e => .error (.coerceFail e)
      | .ok d => .ok (argType, d)
    else .ok (argType, defaultField)

/-! ## Sandboxed execution result checks

`CmdRun.run` lines 201-218: `app = None`; the `export` callback assigns the
exported object to `app` (a later call overwrites an earlier one); after
`exec(script, scope)` the code asserts `app is not None` and then
`isinstance(app, tsm.Application)`.  The script itself is abstracted to the
ordered list of values it passes to `export`. -/

/-- Runtime objects as far as the export checks observe them: `None`, an
instance of `tsm.Application`, or anything else. -/
inductive PyObj where
  | noneObj
  | application (id : Nat)
  | other (id : Nat)
deriving DecidableEq

/-- `isinstance(x, tsm.Application)`. -/
def isApplication : PyObj → Bool
  | .application _ => true
  | _ => false

/-- Value of the `app` variable after the script ran: `None` initially, each
`export(v)` call assigns `v`. -/
def finalApp (exports : List PyObj) : PyObj :=
  exports.foldl (fun _ v => v) .noneObj

/-- The two `AssertionError`s of lines 215-218. -/
inductive ExecErr where
  | missingExport
  | typeMismatch
deriving DecidableEq

/-- The post-execution checks: `assert app is not None`, then
`assert isinstance(app, tsm.Application)`; on success the launcher goes on
to use `app`. -/
def exportChecks (exports : List PyObj) : Except ExecErr PyObj :=
  let app := finalApp exports
  if app = .noneObj then .error .missingExport
  else if !isApplication app then .error .typeMismatch
  else .ok app

/-! ## Stage ordering of `CmdRun.run`

The body of `CmdRun.run` performs, in textual order: `read_conf_file`
(LOAD), `body.split` (SPLIT), `yaml.safe_load` plus the `add_argument`
loop (SCHEMA_BUILD), `ast.parse` plus `ConfValidator().visit` (VALIDATE),
`script_parser.parse_args(args.conf_args)` (ARG_PARSE, inside the `scope`
dict literal on line 209), `exec` plus the export asserts (EXECUTE),
`session.run` (SUBMIT), and the status/print/wait block (REPORT).  Each
stage's body is abstracted to its outcome; an uncaught exception stops the
method, so no later stage runs. -/

/-- The launcher stages named by the specification. -/
inductive Stage where
  | LOAD | SPLIT | SCHEMA_BUILD | ARG_PARSE | VALIDATE | EXECUTE | SUBMIT
  | REPORT
deriving DecidableEq

/-- The order in which `CmdRun.run` performs the stages: validation of the
script happens on lines 197-199, before `parse_args` runs on line 209. -/
def codeStageOrder : List Stage :=
  [.LOAD, .SPLIT, .SCHEMA_BUILD, .VALIDATE, .ARG_PARSE, .EXECUTE, .SUBMIT,
   .REPORT]

/-- Modelled from the spec: the stage order the specification text asserts,
`LOAD → SPLIT → SCHEMA_BUILD → ARG_PARSE → VALIDATE → EXECUTE → SUBMIT →
REPORT`, written down only to compare it with `codeStageOrder`. -/
def specClaimedStageOrder : List Stage :=
  [.LOAD, .SPLIT, .SCHEMA_BUILD, .ARG_PARSE, .VALIDATE, .EXECUTE, .SUBMIT,
   .REPORT]

/-- Run the given stages in order with outcome oracle `f`: returns the list
of stages that actually started, and the error of the first failing one if
any. -/
def runStages (f : Stage → Except String Unit) : List Stage →
    List Stage × Option String
  | [] => ([], none)
  | s :: rest =>
    match f s with
    | .ok _ =>
      let r := runStages f rest
      (s :: r.1, r.2)
    | .error e => ([s], some e)

/-- The trace of one `CmdRun.run` invocation whose stage outcomes are given
by `f`. -/
def runTrace (f : Stage → Except String Unit) : List Stage × Option String :=
  runStages f codeStageOrder

/-! ## Concrete inputs used by counterexamples and witnesses -/

/-- The module `async def f(): pass` — one `ast.AsyncFunctionDef` statement
whose body is a single `pass`. -/
def asyncDefScript : PyNode :=
  .stmt .Module [.stmt .AsyncFunctionDef [.stmt .Pass []]]

/-- The module `x = (1 if c else 2)` — an assignment whose value is an
`ast.IfExp` conditional expression. -/
def ifExpScript : PyNode :=
  .stmt .Module [.stmt .Assign [.stmt .IfExp [.stmt .Constant [],
    .stmt .Name [], .stmt .Constant []]]]

/-- A module whose second statement is a `for` loop. -/
def forScript : PyNode :=
  .stmt .Module [.stmt .Assign [], .stmt .For [.stmt .Pass []]]

/-- A module name that merely begins with the characters of the allowed
prefix `"torchx"` without being it or one of its submodules. -/
def sneakyImport : PyStr := pyS "torchxevil"

/-- A document with one separator. -/
def docOneSep : List Char := pyS "meta\n---\nscript"

/-- A document with two separator occurrences. -/
def docTwoSep : List Char := pyS "a\n---\nb\n---\nc"

/-- A document with three separator occurrences. -/
def docThreeSep : List Char := pyS "a\n---\nb\n---\nc\n---\nd"

/-- A stage oracle under which both argument parsing and script validation
would fail. -/
def bothFailOracle : Stage → Except String Unit
  | .VALIDATE => .error "validation error"
  | .ARG_PARSE => .error "argparse error"
  | _ => .ok ()

example : visit (.stmt .Module [.stmt .Pass []]) = .ok () := rfl
example : visit (.stmt .Module [.stmt .For []]) =
    .error (.unsupportedFeature .For) := rfl
example : visit (.imp [pyS "os"]) = .error (.importError (pyS "os")) := rfl
example : visit (.imp [pyS "os.path"]) = .ok () := rfl
example : visit (.imp [pyS "torchxfoo"]) = .ok () := rfl
example : visit (.impFrom none [pyS "x"]) = .ok () := rfl
example : pyS "ab" = ['a', 'b'] := rfl

/-! ## Helper lemmas -/

theorem prefixOf_exists (p : List Char) :
    ∀ s, p.isPrefixOf s = true → ∃ t, s = p ++ t := by
  induction p with
  | nil => intro s _; exact ⟨s, rfl⟩
  | cons a as ih =>
    intro s h
    cases s with
    | nil => simp [List.isPrefixOf] at h
    | cons b bs =>
      simp only [List.isPrefixOf, Bool.and_eq_true, beq_iff_eq] at h
      obtain ⟨hab, hrest⟩ := h
      obtain ⟨t, ht⟩ := ih bs hrest
      exact ⟨t, by simp [hab, ht]⟩

theorem prefixOf_append (p t : List Char) : p.isPrefixOf (p ++ t) = true := by
  induction p with
  | nil => simp [List.isPrefixOf]
  | cons a as ih => simp [List.isPrefixOf, ih]

theorem prefixOf_refl (p : List Char) : p.isPrefixOf p = true := by
  have h := prefixOf_append p []
  rw [List.append_nil] at h
  exact h

theorem prefixOf_length (p s : List Char) (h : p.isPrefixOf s = true) :
    p.length ≤ s.length := by
  obtain ⟨t, ht⟩ := prefixOf_exists p s h
  subst ht; simp

theorem validateImportPath_eq (names : List PyStr) :
    validateImportPath names = errOfHead (importViolations names) := by
  induction names with
  | nil => rfl
  | cons n rest ih =>
    by_cases h : startsWithAllowed n = true
    · simp [validateImportPath, importViolations, h, ih]
    · simp [validateImportPath, importViolations, h, errOfHead]

theorem importViolations_nil_iff (names : List PyStr) :
    importViolations names = [] ↔ names.all startsWithAllowed = true := by
  induction names with
  | nil => simp [importViolations]
  | cons n rest ih =>
    by_cases h : startsWithAllowed n = true <;>
      simp [importViolations, h, ih]

mutual

theorem visit_eq_errOfHead : ∀ n : PyNode, visit n = errOfHead (violations n)
  | .stmt k cs => by
    by_cases h : k ∈ FEATURE_BLOCKLIST
    · simp [visit, violations, h, errOfHead]
    · simp [visit, violations, h, visitList_eq_errOfHead cs]
  | .imp names => validateImportPath_eq names
  | .impFrom m ns => by
    cases m with
    | none => rfl
    | some mod =>
      by_cases h : mod.isEmpty
      · simp [visit, violations, h, errOfHead]
      · simp [visit, violations, h, validateImportPath_eq [mod]]

theorem visitList_eq_errOfHead : ∀ cs : List PyNode,
    visitList cs = errOfHead (violationsList cs)
  | [] => rfl
  | n :: rest => by
    have hn := visit_eq_errOfHead n
    have hr := visitList_eq_errOfHead rest
    cases hv : violations n with
    | nil =>
      rw [hv] at hn
      simp [visitList, violationsList, hn, hv, errOfHead, hr]
    | cons e t =>
      rw [hv] at hn
      simp [visitList, violationsList, hn, hv, errOfHead]

end

mutual

theorem violations_nil_iff : ∀ n : PyNode,
    violations n = [] ↔
      (containsBlocked n = false ∧ allImportsOk n = true)
  | .stmt k cs => by
    by_cases h : k ∈ FEATURE_BLOCKLIST
    · simp [violations, containsBlocked, allImportsOk, h]
    · simp [violations, containsBlocked, allImportsOk, h,
        violationsList_nil_iff cs]
  | .imp names => by
    simp [violations, containsBlocked, allImportsOk, importViolations_nil_iff]
  | .impFrom m ns => by
    cases m with
    | none => simp [violations, containsBlocked, allImportsOk]
    | some mod =>
      by_cases h : mod.isEmpty <;>
        simp [violations, containsBlocked, allImportsOk, h,
          importViolations_nil_iff]

theorem violationsList_nil_iff : ∀ cs : List PyNode,
    violationsList cs = [] ↔
      (containsBlockedList cs = false ∧ allImportsOkList cs = true)
  | [] => by simp [violationsList, containsBlockedList, allImportsOkList]
  | n :: rest => by
    simp [violationsList, containsBlockedList, allImportsOkList,
      violations_nil_iff n, violationsList_nil_iff rest]
    tauto

end

theorem errOfHead_ok_iff (l : List VErr) : errOfHead l = .ok () ↔ l = [] := by
  cases l <;> simp [errOfHead]

theorem errOfHead_error_iff (l : List VErr) (e : VErr) :
    errOfHead l = .error e ↔ l.head? = some e := by
  cases l <;> simp [errOfHead]

theorem validateImportPath_ok_iff (names : List PyStr) :
    validateImportPath names = .ok () ↔
      ∀ n ∈ names, startsWithAllowed n = true := by
  induction names with
  | nil => simp [validateImportPath]
  | cons n rest ih =>
    by_cases h : startsWithAllowed n = true
    · simp [validateImportPath, h, ih]
    · simp [validateImportPath, h]

theorem validateImportPath_error (names : List PyStr) (e : VErr)
    (h : validateImportPath names = .error e) :
    ∃ n ∈ names, startsWithAllowed n = false ∧ e = .importError n := by
  induction names with
  | nil => simp [validateImportPath] at h
  | cons n rest ih =>
    by_cases hn : startsWithAllowed n = true
    · rw [validateImportPath, if_pos hn] at h
      obtain ⟨m, hm, h1, h2⟩ := ih h
      exact ⟨m, by simp [hm], h1, h2⟩
    · rw [validateImportPath, if_neg hn] at h
      injection h with he
      exact ⟨n, by simp, by simpa using hn, he.symm⟩

theorem splitFirst_length (s : List Char) :
    ∀ pre post, splitFirst s = some (pre, post) → post.length < s.length := by
  induction s with
  | nil => intro pre post h; simp [splitFirst] at h
  | cons c rest ih =>
    intro pre post h
    by_cases hp : SEP.isPrefixOf (c :: rest) = true
    · rw [splitFirst, if_pos hp] at h
      cases h
      have h5 : SEP.length ≤ (c :: rest).length := prefixOf_length _ _ hp
      have h0 : 0 < SEP.length := by decide
      simp only [List.length_drop]
      omega
    · rw [splitFirst, if_neg hp] at h
      cases hsf : splitFirst rest with
      | none => rw [hsf] at h; cases h
      | some pq =>
        obtain ⟨p, q⟩ := pq
        rw [hsf] at h
        cases h
        exact Nat.lt_trans (ih _ _ hsf) (Nat.lt_succ_self _)

theorem splitFirst_eq (s : List Char) :
    ∀ pre post, splitFirst s = some (pre, post) → pre ++ SEP ++ post = s := by
  induction s with
  | nil => intro pre post h; simp [splitFirst] at h
  | cons c rest ih =>
    intro pre post h
    by_cases hp : SEP.isPrefixOf (c :: rest) = true
    · rw [splitFirst, if_pos hp] at h
      cases h
      obtain ⟨t, ht⟩ := prefixOf_exists _ _ hp
      rw [ht]
      simp
    · rw [splitFirst, if_neg hp] at h
      cases hsf : splitFirst rest with
      | none => rw [hsf] at h; cases h
      | some pq =>
        obtain ⟨p, q⟩ := pq
        rw [hsf] at h
        cases h
        have hr := ih _ _ hsf
        simpa using congrArg (List.cons c) hr

theorem splitAllAux_ne_nil (fuel : Nat) (s : List Char) :
    splitAllAux fuel s ≠ [] := by
  cases fuel with
  | zero => simp [splitAllAux]
  | succ f =>
    simp only [splitAllAux]
    rcases hsf : splitFirst s with _ | ⟨pre, post⟩ <;> simp [hsf]

theorem splitAllAux_singleton (fuel : Nat) :
    ∀ s x, splitAllAux fuel s = [x] → x = s := by
  induction fuel with
  | zero =>
    intro s x h
    simp only [splitAllAux] at h
    injection h with h1 _
    exact h1.symm
  | succ f ih =>
    intro s x h
    simp only [splitAllAux] at h
    cases hsf : splitFirst s with
    | none =>
      rw [hsf] at h
      injection h with h1 _
      exact h1.symm
    | some pq =>
      obtain ⟨pre, post⟩ := pq
      rw [hsf] at h
      injection h with h1 h2
      exact absurd h2 (splitAllAux_ne_nil f post)

theorem splitAllAux_pair (fuel : Nat) :
    ∀ s a b, splitAllAux fuel s = [a, b] → splitFirst s = some (a, b) := by
  induction fuel with
  | zero => intro s a b h; simp [splitAllAux] at h
  | succ f ih =>
    intro s a b h
    simp only [splitAllAux] at h
    cases hsf : splitFirst s with
    | none => rw [hsf] at h; simp at h
    | some pq =>
      obtain ⟨pre, post⟩ := pq
      rw [hsf] at h
      injection h with h1 h2
      subst h1
      have hb : b = post := splitAllAux_singleton f post b h2
      subst hb
      rfl

theorem pySplit_ne_nil (s : List Char) : pySplit s ≠ [] :=
  splitAllAux_ne_nil s.length s

theorem length_three_le (l : List (List Char)) (h : 3 ≤ l.length) :
    ∃ a b c t, l = a :: b :: c :: t := by
  cases l with
  | nil => simp at h
  | cons a l1 =>
    cases l1 with
    | nil => simp at h
    | cons b l2 =>
      cases l2 with
      | nil => simp at h
      | cons c t => exact ⟨a, b, c, t, rfl⟩

theorem runStages_all_ok (f : Stage → Except String Unit) (l : List Stage)
    (h : ∀ s ∈ l, f s = .ok ()) : runStages f l = (l, none) := by
  induction l with
  | nil => rfl
  | cons s rest ih =>
    simp [runStages, h s (by simp), ih (fun t ht => h t (by simp [ht]))]

theorem runStages_first_error (f : Stage → Except String Unit) :
    ∀ (pre : List Stage) (s : Stage) (post : List Stage) (e : String),
    (∀ t ∈ pre, f t = .ok ()) → f s = .error e →
    runStages f (pre ++ s :: post) = (pre ++ [s], some e) := by
  intro pre
  induction pre with
  | nil => intro s post e _ hs; simp [runStages, hs]
  | cons t rest ih =>
    intro s post e hok hs
    have hts : f t = .ok () := hok t (by simp)
    simp [runStages, hts, ih s post e (fun u hu => hok u (by simp [hu])) hs]

/-! ## Claim theorems -/

/-- C1 (amended): the validator succeeds on a script exactly when the tree
contains no node of a kind in `FEATURE_BLOCKLIST` (synchronous function and
class definitions, return, delete, the three loop statements, `if`
statements, with/async-with, raise, try, global/nonlocal and the four
comprehension forms — but not async function definitions and not
conditional expressions) and every import path it checks starts with an
allowed prefix; when it fails, the reported error is the first violation
in pre-order traversal order, a blocked construct's kind or a
disallowed import path. -/
theorem validate_characterization (n : PyNode) :
    (visit n = .ok () ↔
      (containsBlocked n = false ∧ allImportsOk n = true)) ∧
    (∀ e, visit n = .error e ↔ (violations n).head? = some e) := by
  refine ⟨?_, ?_⟩
  · rw [visit_eq_errOfHead n, errOfHead_ok_iff, violations_nil_iff n]
  · intro e
    rw [visit_eq_errOfHead n, errOfHead_error_iff]

/-- C1 counterexample: the claim says validation fails for every script
containing a function definition or any conditional, but the module
`async def f(): pass` (an `ast.AsyncFunctionDef`, which is a function
definition yet a distinct class absent from `FEATURE_BLOCKLIST`) and the
module `x = (1 if c else 2)` (an `ast.IfExp` conditional expression, also
absent from the blocklist) both validate successfully. -/
theorem blocked_construct_counterexample :
    visit asyncDefScript = .ok () ∧ visit ifExpScript = .ok () ∧
    NodeKind.AsyncFunctionDef ∉ FEATURE_BLOCKLIST ∧
    NodeKind.IfExp ∉ FEATURE_BLOCKLIST :=
  ⟨rfl, rfl, by decide, by decide⟩

/-- C1 witness: on a module whose second statement is a `for` loop, the
characterization yields the loop's kind as the reported violation. -/
theorem validate_characterization_witness :
    visit forScript = .error (.unsupportedFeature .For) :=
  ((validate_characterization forScript).2 (.unsupportedFeature .For)).mpr rfl

/-- C2 (confirmed): visiting an import statement succeeds exactly when every
imported module path starts with one of the allowed prefixes; any error it
raises cites an offending path; a path that is exactly an allowed prefix,
or extends one below a dot, always passes the check. -/
theorem import_check_spec (names : List PyStr) :
    (visit (.imp names) = .ok () ↔
      ∀ n ∈ names, startsWithAllowed n = true) ∧
    (∀ e, visit (.imp names) = .error e →
      ∃ n ∈ names, startsWithAllowed n = false ∧ e = .importError n) ∧
    (∀ p ∈ IMPORT_ALLOWLIST, startsWithAllowed p = true ∧
      ∀ rest, startsWithAllowed (p ++ '.' :: rest) = true) := by
  refine ⟨?_, ?_, ?_⟩
  · exact validateImportPath_ok_iff names
  · intro e he
    exact validateImportPath_error names e he
  · intro p hp
    constructor
    · exact List.any_eq_true.mpr ⟨p, hp, prefixOf_refl p⟩
    · intro rest
      exact List.any_eq_true.mpr ⟨p, hp, prefixOf_append p ('.' :: rest)⟩

/-- C2 witness: `import torchx.runner` (a sub-path of the allowed prefix
`torchx`) passes, and the dotted extension of `os.path` starts with an
allowed prefix. -/
theorem import_check_spec_witness :
    visit (.imp [pyS "torchx.runner"]) = .ok () ∧
    startsWithAllowed (pyS "os.path" ++ '.' :: pyS "join") = true := by
  refine ⟨(import_check_spec [pyS "torchx.runner"]).1.mpr ?_,
    ((import_check_spec []).2.2 (pyS "os.path") (by decide)).2 (pyS "join")⟩
  intro n hn
  simp only [List.mem_singleton] at hn
  subst hn
  decide

/-- C3 (amended): after execution, `app` holds the last exported value
(`None` if `export` was never called).  If that value is `None` — either
because the script never called `export` or because its last call passed
`None` — the launcher fails with the missing-export assertion; if it is a
non-`None` value that is not a `tsm.Application`, it fails with the
type-mismatch assertion; a script that calls `export` exactly once with an
application gets that very object returned. -/
theorem export_checks_spec (exports : List PyObj) :
    (finalApp exports = .noneObj →
      exportChecks exports = .error .missingExport) ∧
    (∀ i, finalApp exports = .other i →
      exportChecks exports = .error .typeMismatch) ∧
    (∀ a, exports = [.application a] →
      exportChecks exports = .ok (.application a)) ∧
    (exports = [] → exportChecks exports = .error .missingExport) := by
  refine ⟨?_, ?_, ?_, ?_⟩
  · intro h
    simp [exportChecks, h]
  · intro i h
    simp [exportChecks, h, isApplication]
  · intro a h
    subst h
    rfl
  · intro h
    subst h
    rfl

/-- C3 counterexample: the claim says `export` called with a value that is
not a job-spec fails with the type-mismatch error, but a script whose only
call is `export(None)` — and `None` is not a `tsm.Application` — fails with
the missing-export assertion instead, because `app` is simply `None` again
after the call. -/
theorem export_none_counterexample :
    isApplication PyObj.noneObj = false ∧
    exportChecks [PyObj.noneObj] = .error .missingExport :=
  ⟨rfl, rfl⟩

/-- C3 witness: a single `export` of an application yields that application. -/
theorem export_checks_spec_witness :
    exportChecks [PyObj.application 0] = .ok (.application 0) :=
  (export_checks_spec [PyObj.application 0]).2.2.1 0 rfl

/-- C4 (confirmed): when the split finds no separator occurrence the
two-variable unpacking fails, and when it finds exactly one the document
parses into a frontmatter part and a script part that reassemble to the
original text around the separator. -/
theorem parse_document_spec (s : List Char) :
    (sepCount s = 0 → parseDoc s = .error .notEnoughValues) ∧
    (sepCount s = 1 →
      ∃ fm sc, parseDoc s = .ok (fm, sc) ∧ fm ++ SEP ++ sc = s) := by
  have hne : pySplit s ≠ [] := pySplit_ne_nil s
  have hpos : 0 < (pySplit s).length := List.length_pos.mpr hne
  refine ⟨?_, ?_⟩
  · intro h
    unfold sepCount at h
    have hlen : (pySplit s).length = 1 := by omega
    obtain ⟨x, hx⟩ := List.length_eq_one.mp hlen
    simp [parseDoc, hx]
  · intro h
    unfold sepCount at h
    have hlen : (pySplit s).length = 2 := by omega
    obtain ⟨a, b, hab⟩ := List.length_eq_two.mp hlen
    have hsf : splitFirst s = some (a, b) :=
      splitAllAux_pair s.length s a b hab
    exact ⟨a, b, by simp [parseDoc, hab], splitFirst_eq s a b hsf⟩

/-- C4 witness: the document `"meta\n---\nscript"` has one separator, parses,
and its parts reassemble losslessly. -/
theorem parse_document_spec_witness :
    sepCount docOneSep = 1 ∧
    ∃ fm sc, parseDoc docOneSep = .ok (fm, sc) ∧
      fm ++ SEP ++ sc = docOneSep :=
  ⟨rfl, (parse_document_spec docOneSep).2 rfl⟩

/-- C5 (amended): a document with two or more non-overlapping separator
occurrences does not split on the first occurrence — the unmaxed
`body.split` yields three or more parts and the two-variable unpacking
raises. -/
theorem parse_document_multi_sep (s : List Char) (h : 2 ≤ sepCount s) :
    parseDoc s = .error .tooManyValues := by
  have hpos : 0 < (pySplit s).length := List.length_pos.mpr (pySplit_ne_nil s)
  have hlen : 3 ≤ (pySplit s).length := by unfold sepCount at h; omega
  obtain ⟨a, b, c, t, habc⟩ := length_three_le (pySplit s) hlen
  simp [parseDoc, habc]

/-- C5 counterexample: the claim says the document made of the parts a, b
and c joined by two separators parses with frontmatter a and everything
after the first separator as the script; instead the split yields three
parts and parsing fails. -/
theorem split_first_occurrence_counterexample :
    sepCount docTwoSep = 2 ∧ parseDoc docTwoSep = .error .tooManyValues :=
  ⟨rfl, rfl⟩

/-- C5 witness: a document with three separators also fails to parse. -/
theorem parse_document_multi_sep_witness :
    parseDoc docThreeSep = .error .tooManyValues :=
  parse_document_multi_sep docThreeSep (by decide)

/-- C6 (amended): `_get_arg_type` resolves exactly the Python builtin names
`"int"`, `"str"` and `"float"` to the corresponding scalar coercion, and
raises the unknown-argument-type error for every other type name —
including the name `"string"`. -/
theorem arg_type_resolution (typeName : PyStr) :
    (getArgType (pyS "int") = .ok .int ∧ getArgType (pyS "str") = .ok .str ∧
      getArgType (pyS "float") = .ok .float) ∧
    (typeName ∉ [pyS "int", pyS "str", pyS "float"] →
      getArgType typeName = .error (.unknownArgumentType typeName)) := by
  refine ⟨⟨rfl, rfl, rfl⟩, ?_⟩
  intro h
  simp only [List.mem_cons, List.mem_singleton, not_or] at h
  obtain ⟨h1, h2, h3⟩ := h
  simp [getArgType, h1, h2, h3]

/-- C6 counterexample: the claim's supported kind set is written
`{int, string, float}`, but the type name `"string"` is rejected by
`_get_arg_type` (the builtins' names are `"int"`, `"str"`, `"float"`),
while `"str"` is accepted. -/
theorem string_type_name_counterexample :
    getArgType (pyS "string") =
      .error (.unknownArgumentType (pyS "string")) ∧
    getArgType (pyS "str") = .ok .str :=
  ⟨rfl, rfl⟩

/-- C6 witness: the unsupported name `"bool"` is rejected. -/
theorem arg_type_resolution_witness :
    getArgType (pyS "bool") = .error (.unknownArgumentType (pyS "bool")) :=
  (arg_type_resolution (pyS "bool")).2 (by decide)

/-- C7 (amended): only a truthy default value is coerced through the
declaration's type function at build time — failing the build if the
coercion raises and storing the coerced value otherwise; a falsy default
(absent, `None`, `0`, `0.0`, `False` or the empty string) is stored exactly
as it appears, uncoerced, with no failure possible. -/
theorem default_coercion_spec (typeField : Option PyStr) (d : PyValue)
    (ty : ArgType) (ht : getArgType (typeField.getD (pyS "str")) = .ok ty) :
    (pyTruthy d = true →
      (∀ e, argCoerce ty d = .error e →
        buildArg typeField d = .error (.coerceFail e)) ∧
      (∀ v, argCoerce ty d = .ok v → buildArg typeField d = .ok (ty, v))) ∧
    (pyTruthy d = false → buildArg typeField d = .ok (ty, d)) := by
  refine ⟨?_, ?_⟩
  · intro htr
    constructor
    · intro e he
      simp [buildArg, ht, htr, he]
    · intro v hv
      simp [buildArg, ht, htr, hv]
  · intro hf
    simp [buildArg, ht, hf]

/-- C7 counterexample: the claim says a present default that cannot be
coerced fails at build time, but an argument declared with `type: int` and
`default: ""` builds successfully and stores the empty string uncoerced —
`if default:` skips the coercion because `""` is falsy — even though
`int("")` raises. -/
theorem falsy_default_not_coerced_counterexample :
    buildArg (some (pyS "int")) (.vstr []) = .ok (.int, .vstr []) ∧
    argCoerce .int (.vstr []) = .error .cantCoerce :=
  ⟨rfl, rfl⟩

/-- C7 witness: a truthy coercible default (`type: int`, `default: "7"`) is
stored in coerced form. -/
theorem default_coercion_spec_witness :
    buildArg (some (pyS "int")) (.vstr (pyS "7")) = .ok (.int, .vint 7) :=
  ((default_coercion_spec (some (pyS "int")) (.vstr (pyS "7")) .int
    rfl).1 rfl).2 (.vint 7) rfl

/-- C8 (amended): `CmdRun.run` executes its stages in the order LOAD, SPLIT,
SCHEMA_BUILD, VALIDATE, ARG_PARSE, EXECUTE, SUBMIT, REPORT — script
validation runs before argument parsing — and the first failing stage in
that order is terminal: the run stops with that stage's error and no later
stage starts. -/
theorem stage_order_spec (f : Stage → Except String Unit) :
    ((∀ s, f s = .ok ()) → runTrace f = (codeStageOrder, none)) ∧
    (∀ pre s post e, codeStageOrder = pre ++ s :: post →
      (∀ t ∈ pre, f t = .ok ()) → f s = .error e →
      runTrace f = (pre ++ [s], some e)) := by
  refine ⟨?_, ?_⟩
  · intro h
    exact runStages_all_ok f codeStageOrder (fun s _ => h s)
  · intro pre s post e horder hok hs
    rw [runTrace, horder]
    exact runStages_first_error f pre s post e hok hs

/-- C8 counterexample: the claimed order puts ARG_PARSE before VALIDATE, but
the code validates first; under an invocation where both argument parsing
and script validation would fail, the reported error is the validation one,
not the argument-parse one. -/
theorem arg_parse_order_counterexample :
    specClaimedStageOrder ≠ codeStageOrder ∧
    runTrace bothFailOracle =
      ([.LOAD, .SPLIT, .SCHEMA_BUILD, .VALIDATE], some "validation error") ∧
    bothFailOracle .ARG_PARSE = .error "argparse error" :=
  ⟨by decide, rfl, rfl⟩

/-- C8 witness: with every stage succeeding, all eight stages run in code
order and no error is reported. -/
theorem stage_order_spec_witness :
    runTrace (fun _ => .ok ()) = (codeStageOrder, none) :=
  (stage_order_spec (fun _ => .ok ())).1 (fun _ => rfl)

/-- C9 (confirmed): the allowlist test is a plain string-prefix test — the
module name `torchxevil` begins with the characters of the allowed prefix
`torchx` and therefore imports successfully, although it is neither equal
to any allowed prefix nor a dotted sub-path of one. -/
theorem import_prefix_plain_string_test :
    visit (.imp [sneakyImport]) = .ok () ∧
    ∀ p ∈ IMPORT_ALLOWLIST, sneakyImport ≠ p ∧
      (p ++ ['.']).isPrefixOf sneakyImport = false :=
  ⟨rfl, by decide⟩

/-- C10 (confirmed): `visit_ImportFrom` checks nothing when the module field
is `None` (as in the relative import `from . import x`), so such a
statement passes validation whatever names it imports. -/
theorem import_from_relative_unchecked (names : List PyStr) :
    visit (.impFrom none names) = .ok () := rfl
